import Mathlib

/-!
# Verification of the DayDayArXiv resilient data-access layer

A shallow embedding of the frontend's date-normalization utilities
(`lib/utils.ts`), the IndexedDB cache (`lib/dataCache.ts`) and the
fetch/fallback orchestrator (`lib/api.ts`), with proofs of the
specification's claims about them.

Conventions of the embedding:
* A JavaScript `Date` is an absolute instant; we measure instants in
  minutes since the Unix epoch (an `Int`).  The caller's timezone is a
  fixed UTC offset `o` in minutes (local time = UTC + `o`); daylight-saving
  transitions are outside the model.
* The proleptic-Gregorian civil calendar used by ECMAScript `Date`
  (`Date.UTC`, `getFullYear`/`getMonth`/`getDate` and their UTC variants)
  is modelled by `daysFromCivil` / `civilFromDays`, mapping a civil triple
  (year, month 1–12, day 1–31) to a day number (days since 1970-01-01)
  and back.
* Cache timestamps (`Date.now()`) are milliseconds, kept as an abstract
  `Int` parameter `now`.
-/

set_option maxHeartbeats 4000000

namespace DayDayArXiv

/-- Proleptic-Gregorian leap-year predicate, as ECMAScript `Date` uses. -/
def isLeap (y : Int) : Bool := y % 4 == 0 && (y % 100 != 0 || y % 400 == 0)

/-- Number of days in month `m` (1-based) of year `y`. -/
def monthLength (y m : Int) : Int :=
  if m = 2 then (if isLeap y then 29 else 28)
  else if m = 4 ∨ m = 6 ∨ m = 9 ∨ m = 11 then 30 else 31

/-- A calendar-valid civil date (the denotation of a canonical
`YYYY-MM-DD` day string). -/
def ValidCivil (y m d : Int) : Prop :=
  1 ≤ m ∧ m ≤ 12 ∧ 1 ≤ d ∧ d ≤ monthLength y m

instance (y m d : Int) : Decidable (ValidCivil y m d) := by
  unfold ValidCivil; infer_instance

/-- Year shifted so that the year starts in March (Jan/Feb belong to the
previous shifted year). -/
def shiftedYear (y m : Int) : Int := if m ≤ 2 then y - 1 else y

/-- Month renumbered so that March = 0, …, February = 11. -/
def shiftedMonth (m : Int) : Int := if m ≤ 2 then m + 9 else m - 3

/-- 0-based day of the shifted (March-first) year. -/
def dayOfShiftedYear (m d : Int) : Int := (153 * shiftedMonth m + 2) / 5 + d - 1

/-- Day number (days since 1970-01-01 UTC) of a civil date; the model of
ECMAScript `MakeDay`. -/
def daysFromCivil (y m d : Int) : Int :=
  (shiftedYear y m) / 400 * 146097
    + ((shiftedYear y m) % 400 * 365 + (shiftedYear y m) % 400 / 4
        - (shiftedYear y m) % 400 / 100 + dayOfShiftedYear m d)
    - 719468

/-- 400-year era of a day number. -/
def eraOfDay (z : Int) : Int := (z + 719468) / 146097

/-- Day-of-era (0 ≤ · ≤ 146096) of a day number. -/
def doeOfDay (z : Int) : Int := (z + 719468) % 146097

/-- Year-of-era (0 ≤ · ≤ 399) recovered from a day-of-era. -/
def yoeOfDoe (doe : Int) : Int :=
  (doe - doe / 1460 + doe / 36524 - doe / 146096) / 365

/-- Day-of-shifted-year recovered from a day-of-era. -/
def doyOfDoe (doe : Int) : Int :=
  doe - (365 * yoeOfDoe doe + yoeOfDoe doe / 4 - yoeOfDoe doe / 100)

/-- Shifted month recovered from a day-of-shifted-year. -/
def mpOfDoy (doy : Int) : Int := (5 * doy + 2) / 153

/-- Civil date (year, month 1–12, day) of a day number; the model of
ECMAScript `YearFromTime`/`MonthFromTime`/`DateFromTime`. -/
def civilFromDays (z : Int) : Int × Int × Int :=
  let doe := doeOfDay z
  let doy := doyOfDoe doe
  let mp := mpOfDoy doy
  let m := if mp < 10 then mp + 3 else mp - 9
  let y' := yoeOfDoe doe + eraOfDay z * 400
  (if m ≤ 2 then y' + 1 else y', m, doy - (153 * mp + 2) / 5 + 1)

/-! ## Decimal formatting (JS number-to-string and `padStart`) -/

/-- Decimal digits of a natural number, most significant first
(fuel-based so that it reduces definitionally). -/
def natDecAux : Nat → Nat → List Char
  | 0, _ => []
  | fuel + 1, n =>
    if n < 10 then [Nat.digitChar n]
    else natDecAux fuel (n / 10) ++ [Nat.digitChar (n % 10)]

/-- Decimal digit string of a natural number, as `String(n)` in JS. -/
def natDecChars (n : Nat) : List Char := natDecAux (n + 1) n

/-- JS template interpolation of an integer (`${n}`). -/
def intDecStr (n : Int) : String :=
  if n < 0 then String.mk ('-' :: natDecChars n.natAbs)
  else String.mk (natDecChars n.toNat)

/-- `String(n).padStart(2, "0")`, as used for months and days. -/
def pad2 (n : Int) : String :=
  if 0 ≤ n ∧ n < 10 then String.mk ('0' :: natDecChars n.toNat) else intDecStr n

/-- Zero-padding to four digits, as date-fns `yyyy` renders years. -/
def pad4 (n : Int) : String :=
  if 0 ≤ n ∧ n < 10 then String.mk ('0' :: '0' :: '0' :: natDecChars n.toNat)
  else if 0 ≤ n ∧ n < 100 then String.mk ('0' :: '0' :: natDecChars n.toNat)
  else if 0 ≤ n ∧ n < 1000 then String.mk ('0' :: natDecChars n.toNat)
  else intDecStr n

/-! ## Character classes and canonical-day parsing (`lib/utils.ts`) -/

/-- The ten characters matched by the regex class `\d`. -/
def digitCharList : List Char :=
  ['0', '1', '2', '3', '4', '5', '6', '7', '8', '9']

def isDigitChar (c : Char) : Bool := digitCharList.contains c

/-- Numeric value of a digit character (`Number` on a digit). -/
def digitVal (c : Char) : Int := (c.toNat : Int) - 48

/-- JS `String.prototype.trim` whitespace (the ASCII fragment). -/
def isJsWs (c : Char) : Bool := c == ' ' || c == '\t' || c == '\n' || c == '\r'

/-- `s.trim()` on the character list. -/
def trimChars (cs : List Char) : List Char :=
  ((cs.dropWhile isJsWs).reverse.dropWhile isJsWs).reverse

/-- Character-by-character test of `/^(\d{4})-(\d{2})-(\d{2})$/`. -/
def dateShapeOK (y1 y2 y3 y4 s1 m1 m2 s2 d1 d2 : Char) : Bool :=
  s1 == '-' && s2 == '-' && isDigitChar y1 && isDigitChar y2 &&
    isDigitChar y3 && isDigitChar y4 && isDigitChar m1 && isDigitChar m2 &&
    isDigitChar d1 && isDigitChar d2

/-- Executing `DATE_RE = /^(\d{4})-(\d{2})-(\d{2})$/` and converting the
three groups with `Number`. -/
def dateReExec (cs : List Char) : Option (Int × Int × Int) :=
  match cs with
  | [y1, y2, y3, y4, s1, m1, m2, s2, d1, d2] =>
    if dateShapeOK y1 y2 y3 y4 s1 m1 m2 s2 d1 d2 then
      some (1000 * digitVal y1 + 100 * digitVal y2 + 10 * digitVal y3 +
              digitVal y4,
            10 * digitVal m1 + digitVal m2, 10 * digitVal d1 + digitVal d2)
    else none
  | _ => none

/-- `parseLocalDate` (`lib/utils.ts`): trims, matches `DATE_RE`, anchors the
parsed day at 12:00 UTC and reads that instant back as a local calendar
date (the caller's offset is `o` minutes).  The result is the local
(year, month, day) triple of the returned `Date`.  A non-matching string is
handed to the host's generic `new Date(string)` parser, which is outside
the model (`none`). -/
def parseLocalDate (o : Int) (s : String) : Option (Int × Int × Int) :=
  match dateReExec (trimChars s.data) with
  | some (y, m, d) =>
    some (civilFromDays ((daysFromCivil y m d * 1440 + 720 + o) / 1440))
  | none => none

/-- `formatUtcDateFromLocal` (`lib/utils.ts`): anchors the local calendar
date carried by `dt` at local noon and formats the UTC calendar day of that
instant, with unpadded year (`${year}`) and 2-padded month and day. -/
def formatUtcDateFromLocal (o : Int) (dt : Int × Int × Int) : String :=
  let t := daysFromCivil dt.1 dt.2.1 dt.2.2 * 1440 + 720 - o
  let c := civilFromDays (t / 1440)
  intDecStr c.1 ++ "-" ++ pad2 c.2.1 ++ "-" ++ pad2 c.2.2

/-- The canonical zero-padded `YYYY-MM-DD` rendering of a civil date; also
the result of date-fns `format(date, "yyyy-MM-dd")` on a local date. -/
def fmtDateFns (y m d : Int) : String := pad4 y ++ "-" ++ pad2 m ++ "-" ++ pad2 d

/-! ## `parseUtcTimestamp` (`lib/utils.ts`)

The source regex is
`/^(\d{4}-\d{2}-\d{2})[ T](\d{2}:\d{2}:\d{2})\\s*UTC$/`.
Inside a regex literal, `\\` matches one literal backslash character, so
after the time group this pattern requires a literal backslash, then zero
or more letters `s`, then `UTC`. -/

/-- `\d{2}:\d{2}:\d{2}` on the eight time characters. -/
def timeShapeOK (h1 h2 c1 n1 n2 c2 e1 e2 : Char) : Bool :=
  c1 == ':' && c2 == ':' && isDigitChar h1 && isDigitChar h2 &&
    isDigitChar n1 && isDigitChar n2 && isDigitChar e1 && isDigitChar e2

/-- Tail of `UTC_TIMESTAMP_RE` as written in the source: `\\s*UTC$`,
i.e. one literal backslash, zero or more `s`, then `UTC`. -/
def utcTailOK (cs : List Char) : Bool :=
  match cs with
  | '\\' :: rest => rest.dropWhile (· == 's') == ['U', 'T', 'C']
  | _ => false

/-- Tail of the timestamp pattern as the spec words it: optional
whitespace then the literal `UTC` (the intended `\s*UTC$`).  This second
definition follows the spec and exists only to be compared with
`utcTailOK`, which follows the source. -/
def utcTailOKSpec (cs : List Char) : Bool := cs.dropWhile isJsWs == ['U', 'T', 'C']

/-- Executing `UTC_TIMESTAMP_RE` (source form) on a character list,
returning the date and time capture groups. -/
def utcTimestampReExec (cs : List Char) : Option (List Char × List Char) :=
  match cs with
  | y1 :: y2 :: y3 :: y4 :: s1 :: m1 :: m2 :: s2 :: d1 :: d2 :: sep ::
      h1 :: h2 :: c1 :: n1 :: n2 :: c2 :: e1 :: e2 :: rest =>
    if dateShapeOK y1 y2 y3 y4 s1 m1 m2 s2 d1 d2 && (sep == ' ' || sep == 'T')
        && timeShapeOK h1 h2 c1 n1 n2 c2 e1 e2 && utcTailOK rest then
      some ([y1, y2, y3, y4, s1, m1, m2, s2, d1, d2],
            [h1, h2, c1, n1, n2, c2, e1, e2])
    else none
  | _ => none

/-- The same pattern with the spec's intended `\s*UTC$` tail. -/
def utcTimestampReExecSpec (cs : List Char) : Option (List Char × List Char) :=
  match cs with
  | y1 :: y2 :: y3 :: y4 :: s1 :: m1 :: m2 :: s2 :: d1 :: d2 :: sep ::
      h1 :: h2 :: c1 :: n1 :: n2 :: c2 :: e1 :: e2 :: rest =>
    if dateShapeOK y1 y2 y3 y4 s1 m1 m2 s2 d1 d2 && (sep == ' ' || sep == 'T')
        && timeShapeOK h1 h2 c1 n1 n2 c2 e1 e2 && utcTailOKSpec rest then
      some ([y1, y2, y3, y4, s1, m1, m2, s2, d1, d2],
            [h1, h2, c1, n1, n2, c2, e1, e2])
    else none
  | _ => none

/-- The UTC instant (seconds since the epoch) denoted by the two capture
groups, as `new Date(`${date}T${time}Z`)` computes it. -/
def utcInstantOfGroups (ds ts : List Char) : Int :=
  match ds, ts with
  | [y1, y2, y3, y4, _, m1, m2, _, d1, d2], [h1, h2, _, n1, n2, _, e1, e2] =>
    daysFromCivil
        (1000 * digitVal y1 + 100 * digitVal y2 + 10 * digitVal y3 +
          digitVal y4)
        (10 * digitVal m1 + digitVal m2) (10 * digitVal d1 + digitVal d2)
      * 86400 + (10 * digitVal h1 + digitVal h2) * 3600 +
      (10 * digitVal n1 + digitVal n2) * 60 + (10 * digitVal e1 + digitVal e2)
  | _, _ => 0

/-- `parseUtcTimestamp` (`lib/utils.ts`): trims, tries `UTC_TIMESTAMP_RE`,
and otherwise falls back to the host's generic `new Date(string)` parser,
modelled by the parameter `hostParse` (`none` standing for an invalid
date, which the source maps to `null`). -/
def parseUtcTimestamp (hostParse : String → Option Int) (s : String) :
    Option Int :=
  match utcTimestampReExec (trimChars s.data) with
  | some (ds, ts) => some (utcInstantOfGroups ds ts)
  | none => hostParse (String.mk (trimChars s.data))

/-! ## Data model (`lib/types.ts`) -/

structure Paper where
  arxiv_id : String
  title : String
  title_zh : String
  authors : List String
  abstract : String
  tldr_zh : String
  categories : List String
  primary_category : String
  comment : String
  pdf_url : Option String
  published_date : String
  updated_date : String
deriving DecidableEq

/-- `DailyData`; `processing_status` and `error` are the optional
extension fields carried by pipeline output and by the placeholders that
`fetchDailyData` synthesizes. -/
structure DailyData where
  date : String
  category : String
  summary : String
  papers : List Paper
  processing_status : Option String := none
  error : Option String := none
deriving DecidableEq

/-- `DataIndex`; `by_date` is the JSON record, modelled as an association
list. -/
structure DataIndex where
  available_dates : List String
  categories : List String
  by_date : List (String × List String)
  last_updated : Option String := none
deriving DecidableEq

/-! ## The IndexedDB cache (`lib/dataCache.ts`)

The embedded store is modelled by its two object stores: `dataCache`
(keyed by arbitrary strings) and `metaCache` (holding the single
`'metadata'` record).  `Date.now()` is the explicit parameter `now`
(milliseconds).  Each operation returns its result together with the
store state after the call; the model covers the store's successful
execution paths, with read failures treated separately (see
`fetchDailyData`'s `cacheReadErr` parameter). -/

structure CacheEntry where
  data : DailyData
  timestamp : Int
deriving DecidableEq

structure MetaEntry where
  index : DataIndex
  lastUpdated : Int
deriving DecidableEq

structure Store where
  content : String → Option CacheEntry
  meta : Option MetaEntry

/-- The empty store (fresh database). -/
def emptyStore : Store := { content := fun _ => none, meta := none }

/-- Cache expiration: 24 hours in milliseconds. -/
def CACHE_EXPIRATION : Int := 24 * 60 * 60 * 1000

/-- The content cache key `` `${format(date, 'yyyy-MM-dd')}/${category}` ``
built from the local calendar date carried by the `Date` argument. -/
def contentKey (dt : Int × Int × Int) (category : String) : String :=
  fmtDateFns dt.1 dt.2.1 dt.2.2 ++ "/" ++ category

/-- `cacheData(date, category, data)`: writes a `CacheEntry` stamped with
the current time at the content key. -/
def cacheData (st : Store) (now : Int) (dt : Int × Int × Int)
    (category : String) (data : DailyData) : Store :=
  { st with content := fun k =>
      if k = contentKey dt category then some ⟨data, now⟩ else st.content k }

/-- `getCachedData(date, category)`: reads the content key; an entry older
than the TTL is deleted and reported absent. -/
def getCachedData (st : Store) (now : Int) (dt : Int × Int × Int)
    (category : String) : Option DailyData × Store :=
  match st.content (contentKey dt category) with
  | none => (none, st)
  | some entry =>
    if CACHE_EXPIRATION < now - entry.timestamp then
      (none, { st with content := fun k =>
          if k = contentKey dt category then none else st.content k })
    else (some entry.data, st)

/-- `cacheIndex(index)`: replaces the single `'metadata'` record. -/
def cacheIndex (st : Store) (now : Int) (index : DataIndex) : Store :=
  { st with meta := some ⟨index, now⟩ }

/-- `getCachedIndex()`: reads the `'metadata'` record; an expired record
is reported absent but left in place. -/
def getCachedIndex (st : Store) (now : Int) : Option DataIndex × Store :=
  match st.meta with
  | none => (none, st)
  | some entry =>
    if CACHE_EXPIRATION < now - entry.lastUpdated then (none, st)
    else (some entry.index, st)

/-! ## The fetch orchestrator (`lib/api.ts`) -/

/-- Outcome of the `fetch` of a daily-data resource: either the transport
threw, or a response arrived with a status, a status text, and a body
whose JSON parse either succeeds or throws. -/
inductive NetResult where
  | thrown (msg : String)
  | resp (status : Nat) (statusText : String) (body : Except String DailyData)

/-- `Response.ok`. -/
def respOk (status : Nat) : Bool := 200 ≤ status && status ≤ 299

/-- The placeholder synthesized for a 404. -/
def noPapersData (dateStr category : String) : DailyData :=
  { date := dateStr, category := category,
    summary := "No data available for " ++ category ++ " on " ++ dateStr ++ ".",
    papers := [], processing_status := some "no_papers", error := none }

/-- The `error` string for a non-OK status. -/
def statusMessage (dateStr category : String) (status : Nat)
    (statusText : String) : String :=
  "Failed to load " ++ dateStr ++ "/" ++ category ++ ": " ++
    String.mk (natDecChars status) ++ " " ++ statusText

/-- The placeholder synthesized for a non-OK, non-404 status. -/
def failedStatusData (dateStr category : String) (status : Nat)
    (statusText : String) : DailyData :=
  { date := dateStr, category := category,
    summary := "数据加载失败（" ++ String.mk (natDecChars status) ++ "）",
    papers := [], processing_status := some "failed",
    error := some (statusMessage dateStr category status statusText) }

/-- The `error` string built in the outer `catch`. -/
def thrownMessage (dateStr category msg : String) : String :=
  "Failed to load " ++ dateStr ++ "/" ++ category ++ ": " ++ msg

/-- The placeholder synthesized in the outer `catch`. -/
def failedThrownData (dateStr category msg : String) : DailyData :=
  { date := dateStr, category := category, summary := "数据加载失败",
    papers := [], processing_status := some "failed",
    error := some (thrownMessage dateStr category msg) }

/-- `fetchDailyData(date, category)`.  `dt` is the local calendar date of
the `Date` argument, `o` the caller's UTC offset in minutes, `net` the
network outcome.  `cacheReadErr` models the IndexedDB `get` request firing
`onerror`: `getCachedData`'s promise then rejects with
`Error('Error retrieving cached data')` — a rejection that escapes its
`try`/`catch` because the promise is returned without `await` — and is
caught by `fetchDailyData`'s outer `catch`. -/
def fetchDailyData (cacheReadErr : Bool) (st : Store) (now o : Int)
    (dt : Int × Int × Int) (category : String) (net : NetResult) :
    DailyData × Store :=
  if cacheReadErr then
    (failedThrownData (formatUtcDateFromLocal o dt) category
      "Error retrieving cached data", st)
  else
    match getCachedData st now dt category with
    | (some cached, st') => (cached, st')
    | (none, st') =>
      let dateStr := formatUtcDateFromLocal o dt
      match net with
      | .thrown msg => (failedThrownData dateStr category msg, st')
      | .resp status statusText body =>
        if respOk status then
          match body with
          | .ok data => (data, cacheData st' now dt category data)
          | .error msg => (failedThrownData dateStr category msg, st')
        else if status = 404 then (noPapersData dateStr category, st')
        else (failedStatusData dateStr category status statusText, st')

/-- Outcome of the `fetch` of `/data/index.json`. -/
inductive IdxNetResult where
  | thrown (msg : String)
  | resp (status : Nat) (body : Except String DataIndex)

/-- `getAvailableIndex()`: reads the cached index up front as a fallback
candidate (read errors are `.catch`-ed to `null`), then tries the network
with `cache: "no-store"`; a fresh index is written back wholesale. -/
def getAvailableIndex (st : Store) (now : Int) (net : IdxNetResult) :
    Option DataIndex × Store :=
  let cached := (getCachedIndex st now).1
  match net with
  | .thrown _ => (cached, st)
  | .resp status body =>
    if respOk status then
      match body with
      | .ok index => (some index, cacheIndex st now index)
      | .error _ => (cached, st)
    else (cached, st)

/-- `getAvailableDates(category?)`: derives local dates from the index via
`parseLocalDate`, filtering by the `by_date` record when a category is
given. -/
def getAvailableDates (st : Store) (now : Int) (net : IdxNetResult) (o : Int)
    (category : Option String) : List (Option (Int × Int × Int)) × Store :=
  match getAvailableIndex st now net with
  | (none, st') => ([], st')
  | (some index, st') =>
    let ds := match category with
      | some c => index.available_dates.filter (fun s =>
          (((index.by_date.find? (fun (p : String × List String) => p.1 == s)).map
            (fun (p : String × List String) => p.2.contains c)).getD false))
      | none => index.available_dates
    (ds.map (parseLocalDate o), st')

/-- A sample payload. -/
def sampleData : DailyData :=
  { date := "2025-03-14", category := "cs.AI", summary := "ok", papers := [] }

/-- The index of spec §8's category-filter example. -/
def sampleIndex : DataIndex :=
  { available_dates := ["2025-03-13", "2025-03-14"],
    categories := ["cs.AI", "cs.CL"],
    by_date := [("2025-03-13", ["cs.AI"]), ("2025-03-14", ["cs.CL"])] }

/-- A store holding one stale (older than the TTL when read at
`CACHE_EXPIRATION + 1`) content record. -/
def staleStore : Store :=
  { content := fun k =>
      if k = contentKey (2025, 3, 14) "cs.AI" then some ⟨sampleData, 0⟩
      else none,
    meta := none }

-- sanity anchors for the calendar model
example : daysFromCivil 1970 1 1 = 0 := by decide
example : daysFromCivil 2025 3 14 = 20161 := by decide
example : daysFromCivil 2000 2 29 = 11016 := by decide
example : civilFromDays 0 = (1970, 1, 1) := by decide
example : civilFromDays 20161 = (2025, 3, 14) := by decide
example : civilFromDays (-1) = (1969, 12, 31) := by decide

/-- Shifted-month/day bounds give a day-of-shifted-year of at most 365,
and at most 336 outside February. -/
lemma doy_bounds (mp d0 : Int) (h1 : 0 ≤ mp) (h2 : mp < 12) (h3 : 0 ≤ d0)
    (h4 : d0 ≤ 30) (h5 : mp = 1 ∨ mp = 3 ∨ mp = 6 ∨ mp = 8 → d0 ≤ 29)
    (h6 : mp = 11 → d0 ≤ 28) :
    0 ≤ (153 * mp + 2) / 5 + d0 ∧ (153 * mp + 2) / 5 + d0 ≤ 365 ∧
      (mp ≠ 11 → (153 * mp + 2) / 5 + d0 ≤ 336) ∧
      (mp = 11 → (153 * mp + 2) / 5 + d0 = 337 + d0) := by
  interval_cases mp <;> omega

/-- Recovery of the shifted month and 0-based day from a valid
day-of-shifted-year. -/
lemma mp_d0_recovery (mp d0 : Int) (h1 : 0 ≤ mp) (h2 : mp < 12) (h3 : 0 ≤ d0)
    (h4 : d0 ≤ 30) (h5 : mp = 1 ∨ mp = 3 ∨ mp = 6 ∨ mp = 8 → d0 ≤ 29)
    (h6 : mp = 11 → d0 ≤ 28) :
    mpOfDoy ((153 * mp + 2) / 5 + d0) = mp ∧
      ((153 * mp + 2) / 5 + d0) - (153 * mp + 2) / 5 + 1 = d0 + 1 := by
  unfold mpOfDoy
  interval_cases mp <;> omega

/-- Recovery of the year-of-era from a valid day-of-era.  The day-of-year
bound may reach 365 only when the following calendar year
(`yoe + 1`, i.e. the year whose February closes this shifted year)
is a leap year of the era. -/
lemma yoe_recovery (yoe doy : Int) (h1 : 0 ≤ yoe) (h2 : yoe < 400)
    (h3 : 0 ≤ doy) (h4 : doy ≤ 365)
    (h5 : ¬((yoe + 1) % 4 = 0 ∧ ((yoe + 1) % 100 ≠ 0 ∨ yoe + 1 = 400)) →
      doy ≤ 364) :
    yoeOfDoe (yoe * 365 + yoe / 4 - yoe / 100 + doy) = yoe := by
  unfold yoeOfDoe
  interval_cases yoe <;> omega

/-- The calendar model is a bijection on valid civil dates:
`civilFromDays` inverts `daysFromCivil`. -/
theorem civilFromDays_daysFromCivil (y m d : Int) (h : ValidCivil y m d) :
    civilFromDays (daysFromCivil y m d) = (y, m, d) := by
  obtain ⟨hm1, hm2, hd1, hd2⟩ := h
  have hml : monthLength y m ≤ 31 := by
    unfold monthLength; split <;> [split <;> omega; (split <;> omega)]
  -- abbreviations mirroring the algorithm
  set y' := shiftedYear y m with hy'
  set era := y' / 400 with hera
  set yoe := y' % 400 with hyoe
  set mp := shiftedMonth m with hmp
  set d0 := d - 1 with hd0
  have hyoe_b : 0 ≤ yoe ∧ yoe < 400 := by
    constructor
    · exact Int.emod_nonneg y' (by norm_num)
    · exact Int.emod_lt_of_pos y' (by norm_num)
  have hmp_b : 0 ≤ mp ∧ mp < 12 := by
    rw [hmp]; unfold shiftedMonth; split <;> omega
  have hd0_b : 0 ≤ d0 ∧ d0 ≤ 30 := by
    constructor
    · omega
    · omega
  -- link month lengths to the shifted-month day bounds
  have h30 : mp = 1 ∨ mp = 3 ∨ mp = 6 ∨ mp = 8 → d0 ≤ 29 := by
    intro hcase
    have hm' : m = 4 ∨ m = 6 ∨ m = 9 ∨ m = 11 := by
      rw [hmp] at hcase; unfold shiftedMonth at hcase
      split at hcase <;> omega
    have : monthLength y m = 30 := by
      unfold monthLength
      rcases hm' with h | h | h | h <;> subst h <;> norm_num
    omega
  have hfeb : mp = 11 → m = 2 := by
    intro hcase
    rw [hmp] at hcase; unfold shiftedMonth at hcase
    split at hcase <;> omega
  have hleap : m = 2 → (isLeap y = true ↔
      ((yoe + 1) % 4 = 0 ∧ ((yoe + 1) % 100 ≠ 0 ∨ yoe + 1 = 400))) := by
    intro hm2'
    rw [hyoe, hy']; unfold shiftedYear isLeap
    rw [if_pos (by omega : m ≤ 2)]
    simp only [Bool.and_eq_true, beq_iff_eq, Bool.or_eq_true, bne_iff_ne,
      ne_eq]
    omega
  have h28 : mp = 11 → d0 ≤ 28 := by
    intro hcase
    have hm2' := hfeb hcase
    have : monthLength y m ≤ 29 := by
      unfold monthLength; rw [if_pos (by omega : m = 2)]
      split <;> omega
    omega
  obtain ⟨hdoy0, hdoy365, hdoy336, hdoy_feb⟩ :=
    doy_bounds mp d0 hmp_b.1 hmp_b.2 hd0_b.1 hd0_b.2 h30 h28
  set doy := (153 * mp + 2) / 5 + d0 with hdoy
  -- the day-of-year hits 365 only in a leap February
  have hdoy_leap : ¬((yoe + 1) % 4 = 0 ∧ ((yoe + 1) % 100 ≠ 0 ∨ yoe + 1 = 400)) →
      doy ≤ 364 := by
    intro hnl
    by_cases hmp11 : mp = 11
    · have hm2' := hfeb hmp11
      have hnl2 : isLeap y = false := by
        rcases Bool.eq_false_or_eq_true (isLeap y) with hb | hb
        · exact absurd ((hleap hm2').mp hb) hnl
        · exact hb
      have : monthLength y m = 28 := by
        unfold monthLength; rw [if_pos (by omega : m = 2), hnl2]; norm_num
      have := hdoy_feb hmp11
      omega
    · exact le_trans (hdoy336 hmp11) (by norm_num)
  set doe := yoe * 365 + yoe / 4 - yoe / 100 + doy with hdoe
  have hdoe_b : 0 ≤ doe ∧ doe ≤ 146096 := by
    have h4 : 0 ≤ yoe / 4 := Int.ediv_nonneg hyoe_b.1 (by norm_num)
    have h4' : yoe / 4 ≤ 99 := by omega
    have h100 : 0 ≤ yoe / 100 := Int.ediv_nonneg hyoe_b.1 (by norm_num)
    have h100' : yoe / 100 ≤ 3 := by omega
    have h100'' : yoe / 100 ≤ yoe / 4 := by omega
    constructor <;> omega
  -- the produced day number decomposes as era * 146097 + doe
  have hz : daysFromCivil y m d = era * 146097 + doe - 719468 := by
    unfold daysFromCivil dayOfShiftedYear
    rw [← hy', ← hera, ← hyoe, ← hmp]
    omega
  have hera_rec : eraOfDay (daysFromCivil y m d) = era := by
    rw [hz]; unfold eraOfDay; omega
  have hdoe_rec : doeOfDay (daysFromCivil y m d) = doe := by
    rw [hz]; unfold doeOfDay; omega
  have hyoe_rec : yoeOfDoe doe = yoe := by
    rw [hdoe]
    exact yoe_recovery yoe doy hyoe_b.1 hyoe_b.2 hdoy0 hdoy365 hdoy_leap
  have hdoy_rec : doyOfDoe doe = doy := by
    unfold doyOfDoe; rw [hyoe_rec]; omega
  obtain ⟨hmp_rec, hd_rec⟩ :=
    mp_d0_recovery mp d0 hmp_b.1 hmp_b.2 hd0_b.1 hd0_b.2 h30 h28
  -- assemble
  have hy_dec : yoe + era * 400 = y' := by omega
  have hmfinal : (if mp < 10 then mp + 3 else mp - 9) = m := by
    rw [hmp]; unfold shiftedMonth; split <;> omega
  have hyfinal : (if m ≤ 2 then y' + 1 else y') = y := by
    rw [hy']; unfold shiftedYear; split <;> omega
  simp only [civilFromDays]
  rw [hdoe_rec, hdoy_rec, hera_rec, hyoe_rec, hdoy, hmp_rec, hmfinal, hy_dec,
    hyfinal]
  simp only [Prod.mk.injEq]
  exact ⟨True.intro, True.intro, by omega⟩

lemma natDecAux_succ (f n : Nat) :
    natDecAux (f + 1) n = if n < 10 then [Nat.digitChar n]
      else natDecAux f (n / 10) ++ [Nat.digitChar (n % 10)] := rfl

lemma natDecAux_digits1 (f n : Nat) (hf : 1 ≤ f) (h : n ≤ 9) :
    natDecAux f n = [Nat.digitChar n] := by
  match f, hf with
  | f' + 1, _ => rw [natDecAux_succ, if_pos (by omega)]

lemma natDecAux_digits2 (f n : Nat) (hf : 2 ≤ f) (h1 : 10 ≤ n) (h2 : n ≤ 99) :
    natDecAux f n = [Nat.digitChar (n / 10), Nat.digitChar (n % 10)] := by
  match f, hf with
  | f' + 1, _ =>
    rw [natDecAux_succ, if_neg (by omega),
      natDecAux_digits1 f' (n / 10) (by omega) (by omega)]
    rfl

lemma natDecAux_digits3 (f n : Nat) (hf : 3 ≤ f) (h1 : 100 ≤ n)
    (h2 : n ≤ 999) :
    natDecAux f n = [Nat.digitChar (n / 100), Nat.digitChar (n / 10 % 10),
      Nat.digitChar (n % 10)] := by
  match f, hf with
  | f' + 1, _ =>
    rw [natDecAux_succ, if_neg (by omega),
      natDecAux_digits2 f' (n / 10) (by omega) (by omega) (by omega)]
    have h10 : n / 10 / 10 = n / 100 := by omega
    have h10' : n / 10 % 10 = n / 10 % 10 := rfl
    rw [h10]
    rfl

lemma natDecAux_digits4 (f n : Nat) (hf : 4 ≤ f) (h1 : 1000 ≤ n)
    (h2 : n ≤ 9999) :
    natDecAux f n = [Nat.digitChar (n / 1000), Nat.digitChar (n / 100 % 10),
      Nat.digitChar (n / 10 % 10), Nat.digitChar (n % 10)] := by
  match f, hf with
  | f' + 1, _ =>
    rw [natDecAux_succ, if_neg (by omega),
      natDecAux_digits3 f' (n / 10) (by omega) (by omega) (by omega)]
    have ha : n / 10 / 100 = n / 1000 := by omega
    have hb : n / 10 / 10 % 10 = n / 100 % 10 := by omega
    rw [ha, hb]
    rfl

lemma natDecChars_digits4 (n : Nat) (h1 : 1000 ≤ n) (h2 : n ≤ 9999) :
    natDecChars n = [Nat.digitChar (n / 1000), Nat.digitChar (n / 100 % 10),
      Nat.digitChar (n / 10 % 10), Nat.digitChar (n % 10)] :=
  natDecAux_digits4 (n + 1) n (by omega) h1 h2

lemma digitVal_digitChar (k : Nat) (h : k ≤ 9) :
    digitVal (Nat.digitChar k) = (k : Int) ∧
      isDigitChar (Nat.digitChar k) = true := by
  interval_cases k <;> exact ⟨by decide, by decide⟩

lemma digitChar_digitVal (c : Char) (h : isDigitChar c = true) :
    Nat.digitChar (digitVal c).toNat = c ∧ 0 ≤ digitVal c ∧ digitVal c ≤ 9 := by
  have h' : c = '0' ∨ c = '1' ∨ c = '2' ∨ c = '3' ∨ c = '4' ∨ c = '5' ∨
      c = '6' ∨ c = '7' ∨ c = '8' ∨ c = '9' := by
    simpa [isDigitChar, digitCharList] using h
  rcases h' with h' | h' | h' | h' | h' | h' | h' | h' | h' | h' <;>
    subst h' <;> exact ⟨by decide, by decide, by decide⟩

example : fmtDateFns 2025 3 14 = "2025-03-14" := by decide
example : formatUtcDateFromLocal 0 (2025, 3, 14) = "2025-03-14" := by decide
example : parseLocalDate 0 "2025-03-14" = some (2025, 3, 14) := by decide
example : parseLocalDate (-300) " 2025-03-14 " = some (2025, 3, 14) := by
  decide
example : parseLocalDate 0 "2025-3-14" = none := by decide

lemma digit_not_ws (c : Char) (h : isDigitChar c = true) : isJsWs c = false := by
  have h' : c = '0' ∨ c = '1' ∨ c = '2' ∨ c = '3' ∨ c = '4' ∨ c = '5' ∨
      c = '6' ∨ c = '7' ∨ c = '8' ∨ c = '9' := by
    simpa [isDigitChar, digitCharList] using h
  rcases h' with h' | h' | h' | h' | h' | h' | h' | h' | h' | h' <;>
    subst h' <;> decide

lemma trimChars_ten (a b c d e f g h i j : Char) (ha : isJsWs a = false)
    (hj : isJsWs j = false) :
    trimChars [a, b, c, d, e, f, g, h, i, j] = [a, b, c, d, e, f, g, h, i, j] := by
  simp [trimChars, List.dropWhile, ha, hj]

lemma pad2_digits (m : Int) (h0 : 0 ≤ m) (h99 : m ≤ 99) :
    pad2 m = String.mk [Nat.digitChar (m.toNat / 10),
      Nat.digitChar (m.toNat % 10)] := by
  unfold pad2
  split
  · next hlt =>
    have h1 : m.toNat / 10 = 0 := by omega
    have h2 : m.toNat % 10 = m.toNat := by omega
    rw [h1, h2]
    have h3 : natDecChars m.toNat = [Nat.digitChar m.toNat] :=
      natDecAux_digits1 (m.toNat + 1) m.toNat (by omega) (by omega)
    rw [h3]
    rfl
  · next hge =>
    unfold intDecStr
    rw [if_neg (by omega)]
    rw [natDecChars, natDecAux_digits2 (m.toNat + 1) m.toNat (by omega)
      (by omega) (by omega)]

lemma intDecStr_digits4 (y : Int) (h1 : 1000 ≤ y) (h2 : y ≤ 9999) :
    intDecStr y = String.mk [Nat.digitChar (y.toNat / 1000),
      Nat.digitChar (y.toNat / 100 % 10), Nat.digitChar (y.toNat / 10 % 10),
      Nat.digitChar (y.toNat % 10)] := by
  unfold intDecStr
  rw [if_neg (by omega),
    natDecChars_digits4 y.toNat (by omega) (by omega)]

lemma string_mk_append (l1 l2 : List Char) :
    String.mk l1 ++ String.mk l2 = String.mk (l1 ++ l2) := rfl

lemma string_data_mk (l : List Char) : (String.mk l).data = l := rfl

lemma dateReExec_eq_some (cs : List Char) (v : Int × Int × Int)
    (h : dateReExec cs = some v) :
    ∃ y1 y2 y3 y4 m1 m2 d1 d2,
      cs = [y1, y2, y3, y4, '-', m1, m2, '-', d1, d2] ∧
      isDigitChar y1 = true ∧ isDigitChar y2 = true ∧
      isDigitChar y3 = true ∧ isDigitChar y4 = true ∧
      isDigitChar m1 = true ∧ isDigitChar m2 = true ∧
      isDigitChar d1 = true ∧ isDigitChar d2 = true ∧
      v = (1000 * digitVal y1 + 100 * digitVal y2 + 10 * digitVal y3 +
            digitVal y4,
          10 * digitVal m1 + digitVal m2, 10 * digitVal d1 + digitVal d2) := by
  rcases cs with _ | ⟨c1, _ | ⟨c2, _ | ⟨c3, _ | ⟨c4, _ | ⟨c5, _ | ⟨c6, _ |
    ⟨c7, _ | ⟨c8, _ | ⟨c9, _ | ⟨c10, _ | ⟨c11, tl⟩⟩⟩⟩⟩⟩⟩⟩⟩⟩⟩ <;>
    try exact Option.noConfusion h
  replace h : (if dateShapeOK c1 c2 c3 c4 c5 c6 c7 c8 c9 c10 then
      some (1000 * digitVal c1 + 100 * digitVal c2 + 10 * digitVal c3 +
              digitVal c4,
            10 * digitVal c6 + digitVal c7, 10 * digitVal c9 + digitVal c10)
    else none) = some v := h
  by_cases hc : dateShapeOK c1 c2 c3 c4 c5 c6 c7 c8 c9 c10 = true
  · rw [if_pos hc] at h
    injection h with h
    unfold dateShapeOK at hc
    simp only [Bool.and_eq_true, beq_iff_eq] at hc
    obtain ⟨⟨⟨⟨⟨⟨⟨⟨⟨hs1, hs2⟩, hy1⟩, hy2⟩, hy3⟩, hy4⟩, hm1⟩, hm2⟩, hd1⟩,
      hd2⟩ := hc
    subst hs1; subst hs2
    exact ⟨c1, c2, c3, c4, c6, c7, c9, c10, rfl, hy1, hy2, hy3, hy4, hm1, hm2,
      hd1, hd2, h.symm⟩
  · rw [if_neg hc] at h
    exact Option.noConfusion h

/-- `C1`, amended.  The `toCanonicalDay ∘ fromCanonicalDay` round-trip:
for every canonical day string denoting a calendar-valid date with a
four-digit year of at least 1000, and every caller UTC offset `o` (in
minutes) *strictly* within ±12 hours, formatting the parsed local date
returns the original string. -/
theorem c1_roundtrip_amended (s : String) (y m d o : Int)
    (hs : dateReExec s.data = some (y, m, d))
    (hv : ValidCivil y m d) (hy : 1000 ≤ y)
    (ho1 : -720 < o) (ho2 : o < 720) :
    parseLocalDate o s = some (y, m, d) ∧
      formatUtcDateFromLocal o (y, m, d) = s := by
  obtain ⟨sd⟩ := s
  rw [string_data_mk] at hs
  obtain ⟨y1, y2, y3, y4, m1, m2, d1, d2, heq, hy1, hy2, hy3, hy4, hm1, hm2,
    hd1, hd2, hval⟩ := dateReExec_eq_some sd (y, m, d) hs
  rw [Prod.mk.injEq, Prod.mk.injEq] at hval
  obtain ⟨hyv, hmv, hdv⟩ := hval
  obtain ⟨hy1c, hy1b0, hy1b9⟩ := digitChar_digitVal y1 hy1
  obtain ⟨hy2c, hy2b0, hy2b9⟩ := digitChar_digitVal y2 hy2
  obtain ⟨hy3c, hy3b0, hy3b9⟩ := digitChar_digitVal y3 hy3
  obtain ⟨hy4c, hy4b0, hy4b9⟩ := digitChar_digitVal y4 hy4
  obtain ⟨hm1c, hm1b0, hm1b9⟩ := digitChar_digitVal m1 hm1
  obtain ⟨hm2c, hm2b0, hm2b9⟩ := digitChar_digitVal m2 hm2
  obtain ⟨hd1c, hd1b0, hd1b9⟩ := digitChar_digitVal d1 hd1
  obtain ⟨hd2c, hd2b0, hd2b9⟩ := digitChar_digitVal d2 hd2
  have htrim : trimChars sd = sd := by
    rw [heq]
    exact trimChars_ten _ _ _ _ _ _ _ _ _ _ (digit_not_ws y1 hy1)
      (digit_not_ws d2 hd2)
  have hshift1 : (daysFromCivil y m d * 1440 + 720 + o) / 1440 =
      daysFromCivil y m d := by omega
  have hcfd := civilFromDays_daysFromCivil y m d hv
  have hparse : parseLocalDate o (String.mk sd) = some (y, m, d) := by
    unfold parseLocalDate
    simp only [string_data_mk]
    rw [htrim]
    rw [hs]
    show some (civilFromDays ((daysFromCivil y m d * 1440 + 720 + o) / 1440)) =
      some (y, m, d)
    rw [hshift1, hcfd]
  refine ⟨hparse, ?_⟩
  have hshift2 : (daysFromCivil y m d * 1440 + 720 - o) / 1440 =
      daysFromCivil y m d := by omega
  simp only [formatUtcDateFromLocal]
  rw [hshift2, hcfd]
  have hy9999 : y ≤ 9999 := by omega
  have hm99 : 0 ≤ m ∧ m ≤ 99 := by omega
  have hd99 : 0 ≤ d ∧ d ≤ 99 := by omega
  rw [intDecStr_digits4 y hy hy9999, pad2_digits m hm99.1 hm99.2,
    pad2_digits d hd99.1 hd99.2]
  have e1 : y.toNat / 1000 = (digitVal y1).toNat := by omega
  have e2 : y.toNat / 100 % 10 = (digitVal y2).toNat := by omega
  have e3 : y.toNat / 10 % 10 = (digitVal y3).toNat := by omega
  have e4 : y.toNat % 10 = (digitVal y4).toNat := by omega
  have e5 : m.toNat / 10 = (digitVal m1).toNat := by omega
  have e6 : m.toNat % 10 = (digitVal m2).toNat := by omega
  have e7 : d.toNat / 10 = (digitVal d1).toNat := by omega
  have e8 : d.toNat % 10 = (digitVal d2).toNat := by omega
  rw [e1, e2, e3, e4, e5, e6, e7, e8, hy1c, hy2c, hy3c, hy4c, hm1c, hm2c,
    hd1c, hd2c, heq]
  rfl

/-- `C1` as frozen is false: at a caller UTC offset of exactly +12 hours
(720 minutes, still "within ±12 hours", e.g. UTC+12) the round-trip shifts
`"2025-03-14"` to `"2025-03-15"`; and independently, because the year is
interpolated unpadded, `"0500-01-05"` round-trips to `"500-01-05"` even at
offset 0. -/
theorem c1_counterexample :
    (parseLocalDate 720 "2025-03-14" = some (2025, 3, 15) ∧
      formatUtcDateFromLocal 720 (2025, 3, 15) = "2025-03-15" ∧
      ("2025-03-15" : String) ≠ "2025-03-14") ∧
    (parseLocalDate 0 "0500-01-05" = some (500, 1, 5) ∧
      formatUtcDateFromLocal 0 (500, 1, 5) = "500-01-05" ∧
      ("500-01-05" : String) ≠ "0500-01-05") := by
  exact ⟨⟨by decide, by decide, by decide⟩, ⟨by decide, by decide, by decide⟩⟩

/-- Witness: the amended round-trip at the concrete input
`"2025-03-14"`, offset +5 hours. -/
theorem c1_roundtrip_amended_witness :
    parseLocalDate 300 "2025-03-14" = some (2025, 3, 14) ∧
      formatUtcDateFromLocal 300 (2025, 3, 14) = "2025-03-14" :=
  c1_roundtrip_amended "2025-03-14" 2025 3 14 300 (by decide) (by decide)
    (by decide) (by decide) (by decide)

example : utcTimestampReExec ("2025-03-14 01:02:03\\UTC").data =
    some (("2025-03-14").data, ("01:02:03").data) := by decide
example : utcTimestampReExec ("2025-03-14 01:02:03\\ssUTC").data =
    some (("2025-03-14").data, ("01:02:03").data) := by decide

/-- `C8`.  The primary pattern branch never fires on the pipeline's
commit-log shape: on the canonical input `"2025-03-14 01:02:03 UTC"` the
source regex fails to match (its `\\s` demands a literal backslash), so
`parseUtcTimestamp` falls through to the generic host parser, whatever
that parser does; the spec's intended pattern does match this input.  The
only strings the primary branch accepts contain a literal backslash before
`UTC`. -/
theorem c8_primary_branch_never_matches :
    (∀ hostParse : String → Option Int,
      parseUtcTimestamp hostParse "2025-03-14 01:02:03 UTC" =
        hostParse "2025-03-14 01:02:03 UTC") ∧
    utcTimestampReExec ("2025-03-14 01:02:03 UTC").data = none ∧
    utcTimestampReExec ("2025-03-14T01:02:03 UTC").data = none ∧
    utcTimestampReExecSpec ("2025-03-14 01:02:03 UTC").data =
      some (("2025-03-14").data, ("01:02:03").data) ∧
    utcTimestampReExec ("2025-03-14 01:02:03\\UTC").data =
      some (("2025-03-14").data, ("01:02:03").data) := by
  refine ⟨fun hostParse => rfl, by decide, by decide, by decide, by decide⟩

/-- Witness: the fallback is taken verbatim for a concrete host parser. -/
theorem c8_primary_branch_never_matches_witness :
    parseUtcTimestamp (fun _ => some 0) "2025-03-14 01:02:03 UTC" = some 0 :=
  c8_primary_branch_never_matches.1 (fun _ => some 0)

/-! ## Shared facts and sample values -/

lemma string_data_append (s t : String) : (s ++ t).data = s.data ++ t.data := by
  cases s; cases t; rfl

lemma statusMessage_ne_empty (dateStr category : String) (status : Nat)
    (statusText : String) :
    statusMessage dateStr category status statusText ≠ "" := by
  intro h
  have h' := congrArg String.data h
  simp [statusMessage, string_data_append] at h'

lemma thrownMessage_ne_empty (dateStr category msg : String) :
    thrownMessage dateStr category msg ≠ "" := by
  intro h
  have h' := congrArg String.data h
  simp [thrownMessage, string_data_append] at h'

/-- The store effect of a `getCachedData` call: metadata untouched, other
content keys untouched, the queried key either untouched or deleted, and
on a hit the store is untouched entirely. -/
lemma getCachedData_frame (st : Store) (now : Int) (dt : Int × Int × Int)
    (category : String) :
    (getCachedData st now dt category).2.meta = st.meta ∧
    (∀ k, k ≠ contentKey dt category →
      (getCachedData st now dt category).2.content k = st.content k) ∧
    ((getCachedData st now dt category).2.content (contentKey dt category) =
        st.content (contentKey dt category) ∨
      (getCachedData st now dt category).2.content (contentKey dt category) =
        none) ∧
    (∀ r, (getCachedData st now dt category).1 = some r →
      (getCachedData st now dt category).2 = st) := by
  cases hc : st.content (contentKey dt category) with
  | none =>
    have hres : getCachedData st now dt category = (none, st) := by
      simp only [getCachedData, hc]
    rw [hres]
    exact ⟨rfl, fun k _ => rfl, Or.inl hc, fun r _ => rfl⟩
  | some entry =>
    by_cases hexp : CACHE_EXPIRATION < now - entry.timestamp
    · have hres : getCachedData st now dt category =
          (none, { st with content := fun k =>
            if k = contentKey dt category then none else st.content k }) := by
        simp only [getCachedData, hc, if_pos hexp]
      rw [hres]
      exact ⟨rfl, fun k hk => if_neg hk, Or.inr (if_pos rfl),
        fun r hr => absurd hr (by simp)⟩
    · have hres : getCachedData st now dt category = (some entry.data, st) := by
        simp only [getCachedData, hc, if_neg hexp]
      rw [hres]
      exact ⟨rfl, fun k _ => rfl, Or.inl hc, fun r _ => rfl⟩

/-- Evaluating `parseLocalDate` on a concretely matching string for an
abstract offset in `[-720, 720)`. -/
lemma parseLocalDate_concrete (o y m d D : Int) (s : String)
    (h1 : dateReExec (trimChars s.data) = some (y, m, d))
    (h2 : daysFromCivil y m d = D) (h3 : civilFromDays D = (y, m, d))
    (ho1 : -720 ≤ o) (ho2 : o < 720) :
    parseLocalDate o s = some (y, m, d) := by
  unfold parseLocalDate
  rw [h1]
  show some (civilFromDays ((daysFromCivil y m d * 1440 + 720 + o) / 1440)) =
    some (y, m, d)
  rw [h2]
  have hdiv : (D * 1440 + 720 + o) / 1440 = D := by omega
  rw [hdiv, h3]

lemma pad4_eq_intDecStr (y : Int) (h : 1000 ≤ y) : pad4 y = intDecStr y := by
  unfold pad4
  rw [if_neg (by omega), if_neg (by omega), if_neg (by omega)]

/-! ## Claims about the cache and the orchestrator -/

/-- `C6`.  Cache freshness: a `cacheData` followed by a `getCachedData` at
the same key strictly before the TTL elapses returns the identical value
(and no further store change); once the record's age exceeds the TTL the
read returns `none` even though the record was still physically present
when the read began. -/
theorem c6_cache_freshness (st : Store) (t0 t1 : Int) (dt : Int × Int × Int)
    (category : String) (data : DailyData) :
    (t1 - t0 < CACHE_EXPIRATION →
      getCachedData (cacheData st t0 dt category data) t1 dt category =
        (some data, cacheData st t0 dt category data)) ∧
    (CACHE_EXPIRATION < t1 - t0 →
      (getCachedData (cacheData st t0 dt category data) t1 dt category).1 =
          none ∧
        (cacheData st t0 dt category data).content (contentKey dt category) =
          some ⟨data, t0⟩) := by
  have hread : (cacheData st t0 dt category data).content
      (contentKey dt category) = some ⟨data, t0⟩ := by
    simp [cacheData]
  constructor
  · intro hfresh
    simp only [getCachedData, hread]
    rw [if_neg (show ¬CACHE_EXPIRATION < t1 - t0 by omega)]
  · intro hexp
    refine ⟨?_, hread⟩
    simp only [getCachedData, hread]
    rw [if_pos (show CACHE_EXPIRATION < t1 - t0 by omega)]

/-- Witness for `C6` at a concrete store, key, payload and clock. -/
theorem c6_cache_freshness_witness :
    getCachedData (cacheData emptyStore 0 (2025, 3, 14) "cs.AI" sampleData) 1
        (2025, 3, 14) "cs.AI" =
      (some sampleData, cacheData emptyStore 0 (2025, 3, 14) "cs.AI"
        sampleData) ∧
    (getCachedData (cacheData emptyStore 0 (2025, 3, 14) "cs.AI" sampleData)
        (CACHE_EXPIRATION + 1) (2025, 3, 14) "cs.AI").1 = none :=
  ⟨(c6_cache_freshness emptyStore 0 1 (2025, 3, 14) "cs.AI" sampleData).1
      (by norm_num [CACHE_EXPIRATION]),
    ((c6_cache_freshness emptyStore 0 (CACHE_EXPIRATION + 1) (2025, 3, 14)
      "cs.AI" sampleData).2 (by norm_num)).1⟩

/-- `C10`.  Reads never extend a record's lifetime and have no side effect
beyond lazy expiry: `getCachedData` leaves the metadata partition and
every other content key untouched, and at the queried key either leaves
the record untouched or deletes it (never rewrites its timestamp); on a
fresh hit the whole store is untouched.  `getCachedIndex` never changes
the store at all. -/
theorem c10_reads_no_lifetime_extension (st : Store) (now : Int)
    (dt : Int × Int × Int) (category : String) :
    ((getCachedData st now dt category).2.meta = st.meta ∧
      (∀ k, k ≠ contentKey dt category →
        (getCachedData st now dt category).2.content k = st.content k) ∧
      ((getCachedData st now dt category).2.content (contentKey dt category) =
          st.content (contentKey dt category) ∨
        (getCachedData st now dt category).2.content
          (contentKey dt category) = none) ∧
      (∀ r, (getCachedData st now dt category).1 = some r →
        (getCachedData st now dt category).2 = st)) ∧
    (getCachedIndex st now).2 = st := by
  refine ⟨getCachedData_frame st now dt category, ?_⟩
  cases hm : st.meta with
  | none => simp only [getCachedIndex, hm]
  | some entry =>
    by_cases hexp : CACHE_EXPIRATION < now - entry.lastUpdated
    · simp only [getCachedIndex, hm, if_pos hexp]
    · simp only [getCachedIndex, hm, if_neg hexp]

/-- Witness for `C10` on a concrete store and keys. -/
theorem c10_reads_no_lifetime_extension_witness :
    (getCachedData staleStore 5 (2025, 3, 14) "cs.AI").2.meta =
        staleStore.meta ∧
    (getCachedData staleStore 5 (2025, 3, 14) "cs.AI").2.content "other" =
        staleStore.content "other" ∧
    (getCachedIndex staleStore 5).2 = staleStore :=
  ⟨(c10_reads_no_lifetime_extension staleStore 5 (2025, 3, 14) "cs.AI").1.1,
    (c10_reads_no_lifetime_extension staleStore 5 (2025, 3, 14)
      "cs.AI").1.2.1 "other" (by decide),
    (c10_reads_no_lifetime_extension staleStore 5 (2025, 3, 14) "cs.AI").2⟩

/-- `C3` as frozen is false in one corner: the cache partition is *not*
always unchanged by a failed or not-found call, because the cache-first
read lazily deletes an expired record.  Concretely, starting from a store
holding one expired record, a 404 call removes it. -/
theorem c3_counterexample :
    staleStore.content (contentKey (2025, 3, 14) "cs.AI") =
        some ⟨sampleData, 0⟩ ∧
    (fetchDailyData false staleStore (CACHE_EXPIRATION + 1) 0 (2025, 3, 14)
          "cs.AI" (.resp 404 "Not Found" (.error "no body"))).2.content
        (contentKey (2025, 3, 14) "cs.AI") = none ∧
    (fetchDailyData false staleStore (CACHE_EXPIRATION + 1) 0 (2025, 3, 14)
          "cs.AI"
          (.resp 404 "Not Found" (.error "no body"))).1.processing_status =
      some "no_papers" := by
  refine ⟨rfl, ?_, rfl⟩
  show (if contentKey (2025, 3, 14) "cs.AI" = contentKey (2025, 3, 14) "cs.AI"
    then none else staleStore.content (contentKey (2025, 3, 14) "cs.AI")) =
    none
  rw [if_pos rfl]

/-- `C3`, amended.  `fetchDailyData` never writes a synthesized
placeholder to the cache: on every thrown, non-2xx, or unparseable-body
outcome the store after the call is exactly the store left by the
cache-first read, which itself differs from the initial store at most by
the lazy deletion of an expired record at the queried key — no key is
ever written on these paths. -/
theorem c3_no_placeholder_write_amended (st st' : Store) (now o : Int)
    (dt : Int × Int × Int) (category : String)
    (hmiss : getCachedData st now dt category = (none, st')) :
    (∀ msg, (fetchDailyData false st now o dt category (.thrown msg)).2 =
      st') ∧
    (∀ status statusText body, respOk status = false →
      (fetchDailyData false st now o dt category
        (.resp status statusText body)).2 = st') ∧
    (∀ status statusText msg,
      (fetchDailyData false st now o dt category
        (.resp status statusText (.error msg))).2 = st') ∧
    st'.meta = st.meta ∧
    (∀ k, k ≠ contentKey dt category → st'.content k = st.content k) ∧
    (st'.content (contentKey dt category) = st.content (contentKey dt category)
      ∨ st'.content (contentKey dt category) = none) := by
  have hframe := getCachedData_frame st now dt category
  rw [hmiss] at hframe
  refine ⟨fun msg => ?_, fun status statusText body hok => ?_,
    fun status statusText msg => ?_, hframe.1, hframe.2.1, hframe.2.2.1⟩
  · simp only [fetchDailyData, hmiss]
    rfl
  · simp only [fetchDailyData, hmiss, hok]
    show (if status = 404 then
        (noPapersData (formatUtcDateFromLocal o dt) category, st')
      else (failedStatusData (formatUtcDateFromLocal o dt) category status
        statusText, st')).2 = st'
    rcases eq_or_ne status 404 with h404 | h404
    · rw [if_pos h404]
    · rw [if_neg h404]
  · by_cases hok : respOk status = true
    · simp only [fetchDailyData, hmiss, hok]
      rfl
    · simp only [Bool.not_eq_true] at hok
      simp only [fetchDailyData, hmiss, hok]
      show (if status = 404 then
          (noPapersData (formatUtcDateFromLocal o dt) category, st')
        else (failedStatusData (formatUtcDateFromLocal o dt) category status
          statusText, st')).2 = st'
      rcases eq_or_ne status 404 with h404 | h404
      · rw [if_pos h404]
      · rw [if_neg h404]

/-- Witness for the amended `C3` on a concrete store and outcome. -/
theorem c3_no_placeholder_write_amended_witness :
    (fetchDailyData false emptyStore 0 0 (2025, 3, 14) "cs.AI"
      (.thrown "NetworkError")).2 = emptyStore :=
  (c3_no_placeholder_write_amended emptyStore emptyStore 0 0 (2025, 3, 14)
    "cs.AI" rfl).1 "NetworkError"

/-- `C7`.  The claim describes the intended behaviour, but the code
violates it: when the IndexedDB `get` request errors, `getCachedData`'s
promise rejection escapes its `try`/`catch` (the promise is returned
without `await`), so `fetchDailyData` resolves to a `"failed"` placeholder
from its outer `catch` and never consults the network — for *every*
network outcome, including a healthy 200 with a body. -/
theorem c7_read_error_not_treated_as_miss (st : Store) (now o : Int)
    (dt : Int × Int × Int) (category : String) (net : NetResult) :
    fetchDailyData true st now o dt category net =
      (failedThrownData (formatUtcDateFromLocal o dt) category
        "Error retrieving cached data", st) ∧
    (fetchDailyData true st now o dt category net).1.processing_status =
      some "failed" ∧
    (∀ data statusText,
      (fetchDailyData true st now o dt category
          (.resp 200 statusText (.ok data))).1.papers = []) := by
  exact ⟨rfl, rfl, fun data statusText => rfl⟩

/-- Witness: with a healthy 200 network outcome carrying a real payload,
the read-error path still returns the `failed` placeholder and drops the
payload. -/
theorem c7_read_error_not_treated_as_miss_witness :
    fetchDailyData true emptyStore 0 0 (2025, 3, 14) "cs.AI"
        (.resp 200 "OK" (.ok sampleData)) =
      (failedThrownData (formatUtcDateFromLocal 0 (2025, 3, 14)) "cs.AI"
        "Error retrieving cached data", emptyStore) :=
  (c7_read_error_not_treated_as_miss emptyStore 0 0 (2025, 3, 14) "cs.AI"
    (.resp 200 "OK" (.ok sampleData))).1

/-- `C2`.  `fetchDailyData` status mapping (the model is a total function,
so every outcome resolves to a value — nothing rejects).  Given a clean
cache miss: a 404 yields the `no_papers` placeholder with empty papers;
any other non-2xx status yields the `failed` placeholder with a non-empty
`error`; a thrown transport error yields the `failed` placeholder with a
non-empty `error`; a 2xx response with a parseable body is returned
as-is, in particular carrying no `processing_status` when the body has
none. -/
theorem c2_status_mapping (st st' : Store) (now o : Int)
    (dt : Int × Int × Int) (category : String)
    (hmiss : getCachedData st now dt category = (none, st')) :
    (∀ statusText body,
      fetchDailyData false st now o dt category (.resp 404 statusText body) =
        (noPapersData (formatUtcDateFromLocal o dt) category, st') ∧
      (noPapersData (formatUtcDateFromLocal o dt) category).processing_status
        = some "no_papers" ∧
      (noPapersData (formatUtcDateFromLocal o dt) category).papers = []) ∧
    (∀ status statusText body, respOk status = false → status ≠ 404 →
      fetchDailyData false st now o dt category
          (.resp status statusText body) =
        (failedStatusData (formatUtcDateFromLocal o dt) category status
          statusText, st') ∧
      (failedStatusData (formatUtcDateFromLocal o dt) category status
        statusText).processing_status = some "failed" ∧
      (failedStatusData (formatUtcDateFromLocal o dt) category status
          statusText).error =
        some (statusMessage (formatUtcDateFromLocal o dt) category status
          statusText) ∧
      statusMessage (formatUtcDateFromLocal o dt) category status statusText
        ≠ "") ∧
    (∀ msg, fetchDailyData false st now o dt category (.thrown msg) =
        (failedThrownData (formatUtcDateFromLocal o dt) category msg, st') ∧
      (failedThrownData (formatUtcDateFromLocal o dt) category
        msg).processing_status = some "failed" ∧
      (failedThrownData (formatUtcDateFromLocal o dt) category msg).error =
        some (thrownMessage (formatUtcDateFromLocal o dt) category msg) ∧
      thrownMessage (formatUtcDateFromLocal o dt) category msg ≠ "") ∧
    (∀ status statusText data, respOk status = true →
      (fetchDailyData false st now o dt category
        (.resp status statusText (.ok data))).1 = data ∧
      (data.processing_status = none →
        (fetchDailyData false st now o dt category
          (.resp status statusText (.ok data))).1.processing_status =
          none)) := by
  refine ⟨fun statusText body => ⟨?_, rfl, rfl⟩,
    fun status statusText body hok h404 => ⟨?_, rfl, rfl,
      statusMessage_ne_empty _ _ _ _⟩,
    fun msg => ⟨?_, rfl, rfl, thrownMessage_ne_empty _ _ _⟩,
    fun status statusText data hok => ?_⟩
  · simp only [fetchDailyData, hmiss]
    rfl
  · simp only [fetchDailyData, hmiss, hok]
    show (if status = 404 then
        (noPapersData (formatUtcDateFromLocal o dt) category, st')
      else (failedStatusData (formatUtcDateFromLocal o dt) category status
        statusText, st')) =
      (failedStatusData (formatUtcDateFromLocal o dt) category status
        statusText, st')
    rw [if_neg h404]
  · simp only [fetchDailyData, hmiss]
    rfl
  · have h1 : (fetchDailyData false st now o dt category
        (.resp status statusText (.ok data))).1 = data := by
      simp only [fetchDailyData, hmiss, hok]
      rfl
    exact ⟨h1, fun hps => by rw [h1]; exact hps⟩

/-- Witness for `C2`: the 404 and thrown branches at a concrete empty
store. -/
theorem c2_status_mapping_witness :
    fetchDailyData false emptyStore 0 0 (2025, 3, 14) "cs.AI"
        (.resp 404 "Not Found" (.error "nb")) =
      (noPapersData (formatUtcDateFromLocal 0 (2025, 3, 14)) "cs.AI",
        emptyStore) ∧
    fetchDailyData false emptyStore 0 0 (2025, 3, 14) "cs.AI"
        (.thrown "NetworkError") =
      (failedThrownData (formatUtcDateFromLocal 0 (2025, 3, 14)) "cs.AI"
        "NetworkError", emptyStore) :=
  ⟨((c2_status_mapping emptyStore emptyStore 0 0 (2025, 3, 14) "cs.AI"
      rfl).1 "Not Found" (.error "nb")).1,
    ((c2_status_mapping emptyStore emptyStore 0 0 (2025, 3, 14) "cs.AI"
      rfl).2.2.1 "NetworkError").1⟩

/-- `C5`.  `getAvailableIndex` is network-first with cached fallback: a
2xx fetch with parseable body resolves to the network index and replaces
the cached record wholesale; a non-2xx status, a thrown transport error,
or an unparseable body resolve to the previously read cached index —
which is the stored index exactly when one is present and fresh, and
`none` when the metadata partition is empty.  The model is a total
function: every outcome resolves. -/
theorem c5_index_network_first_fallback (st : Store) (now : Int) :
    (∀ status index, respOk status = true →
      getAvailableIndex st now (.resp status (.ok index)) =
        (some index, cacheIndex st now index) ∧
      (cacheIndex st now index).meta = some ⟨index, now⟩) ∧
    (∀ status body, respOk status = false →
      getAvailableIndex st now (.resp status body) =
        ((getCachedIndex st now).1, st)) ∧
    (∀ status msg, getAvailableIndex st now (.resp status (.error msg)) =
      ((getCachedIndex st now).1, st)) ∧
    (∀ msg, getAvailableIndex st now (.thrown msg) =
      ((getCachedIndex st now).1, st)) ∧
    (∀ entry, st.meta = some entry →
      now - entry.lastUpdated ≤ CACHE_EXPIRATION →
      (getCachedIndex st now).1 = some entry.index) ∧
    (st.meta = none → (getCachedIndex st now).1 = none) := by
  refine ⟨fun status index hok => ⟨?_, rfl⟩, fun status body hok => ?_,
    fun status msg => ?_, fun msg => rfl, fun entry hmeta hfresh => ?_,
    fun hmeta => ?_⟩
  · simp only [getAvailableIndex, hok]
    rfl
  · simp only [getAvailableIndex, hok]
    rfl
  · by_cases hok : respOk status = true
    · simp only [getAvailableIndex, hok]
      rfl
    · simp only [Bool.not_eq_true] at hok
      simp only [getAvailableIndex, hok]
      rfl
  · simp only [getCachedIndex, hmeta]
    rw [if_neg (show ¬CACHE_EXPIRATION < now - entry.lastUpdated by omega)]
  · simp only [getCachedIndex, hmeta]

/-- Witness for `C5`: a successful fetch caches the index, and a
subsequent call whose fetch throws falls back to that cached index. -/
theorem c5_index_network_first_fallback_witness :
    getAvailableIndex emptyStore 0 (.resp 200 (.ok sampleIndex)) =
      (some sampleIndex, cacheIndex emptyStore 0 sampleIndex) ∧
    getAvailableIndex (cacheIndex emptyStore 0 sampleIndex) 5
        (.thrown "offline") =
      (some sampleIndex, cacheIndex emptyStore 0 sampleIndex) := by
  have h := c5_index_network_first_fallback (cacheIndex emptyStore 0
    sampleIndex) 5
  refine ⟨((c5_index_network_first_fallback emptyStore 0).1 200 sampleIndex
    (by decide)).1, ?_⟩
  rw [h.2.2.2.1 "offline",
    h.2.2.2.2.1 ⟨sampleIndex, 0⟩ rfl (by norm_num [CACHE_EXPIRATION])]

/-- `C9`.  `getAvailableDates`: on the spec's example index, filtering by
`"cs.AI"` returns exactly the local date parsed from `"2025-03-13"`, and
the unfiltered call returns both days; when no index is obtainable (fetch
fails and the metadata partition is empty) the result is the empty list;
and in general the filtered result is exactly the `available_dates`
entries whose `by_date` entry lists the category, parsed to local
dates. -/
theorem c9_available_dates_filter (o : Int) (ho1 : -720 ≤ o) (ho2 : o < 720) :
    (getAvailableDates emptyStore 0 (.resp 200 (.ok sampleIndex)) o
      (some "cs.AI")).1 = [some (2025, 3, 13)] ∧
    (getAvailableDates emptyStore 0 (.resp 200 (.ok sampleIndex)) o none).1 =
      [some (2025, 3, 13), some (2025, 3, 14)] ∧
    (∀ (st : Store) (now : Int) (c : Option String) (msg : String),
      st.meta = none → (getAvailableDates st now (.thrown msg) o c).1 = []) ∧
    (∀ (st : Store) (now : Int) (status : Nat)
      (body : Except String DataIndex) (c : Option String),
      st.meta = none → respOk status = false →
      (getAvailableDates st now (.resp status body) o c).1 = []) ∧
    (∀ (st : Store) (now : Int) (status : Nat) (idx : DataIndex) (c : String),
      respOk status = true →
      (getAvailableDates st now (.resp status (.ok idx)) o (some c)).1 =
        (idx.available_dates.filter (fun s =>
          (((idx.by_date.find? (fun (p : String × List String) => p.1 == s)).map
            (fun (p : String × List String) => p.2.contains c)).getD
            false))).map (parseLocalDate o)) := by
  have hp13 : parseLocalDate o "2025-03-13" = some (2025, 3, 13) :=
    parseLocalDate_concrete o 2025 3 13 20160 "2025-03-13" (by decide)
      (by decide) (by decide) ho1 ho2
  have hp14 : parseLocalDate o "2025-03-14" = some (2025, 3, 14) :=
    parseLocalDate_concrete o 2025 3 14 20161 "2025-03-14" (by decide)
      (by decide) (by decide) ho1 ho2
  refine ⟨?_, ?_, fun st now c msg hmeta => ?_,
    fun st now status body c hmeta hok => ?_, fun st now status idx c hok => ?_⟩
  · show [parseLocalDate o "2025-03-13"] = [some (2025, 3, 13)]
    rw [hp13]
  · show [parseLocalDate o "2025-03-13", parseLocalDate o "2025-03-14"] =
      [some (2025, 3, 13), some (2025, 3, 14)]
    rw [hp13, hp14]
  · have h1 : getAvailableIndex st now (.thrown msg) = (none, st) := by
      simp only [getAvailableIndex, getCachedIndex, hmeta]
    simp only [getAvailableDates, h1]
  · have h1 : getAvailableIndex st now (.resp status body) = (none, st) := by
      simp only [getAvailableIndex, getCachedIndex, hmeta, hok]
      rfl
    simp only [getAvailableDates, h1]
  · have h1 : getAvailableIndex st now (.resp status (.ok idx)) =
        (some idx, cacheIndex st now idx) := by
      simp only [getAvailableIndex, hok]
      rfl
    simp only [getAvailableDates, h1]

/-- Witness for `C9` at offset 0. -/
theorem c9_available_dates_filter_witness :
    (getAvailableDates emptyStore 0 (.resp 200 (.ok sampleIndex)) 0
      (some "cs.AI")).1 = [some (2025, 3, 13)] ∧
    (getAvailableDates emptyStore 0 (.resp 200 (.ok sampleIndex)) 0 none).1 =
      [some (2025, 3, 13), some (2025, 3, 14)] ∧
    (getAvailableDates emptyStore 0 (.thrown "offline") 0 none).1 = [] :=
  ⟨(c9_available_dates_filter 0 (by norm_num) (by norm_num)).1,
    (c9_available_dates_filter 0 (by norm_num) (by norm_num)).2.1,
    (c9_available_dates_filter 0 (by norm_num) (by norm_num)).2.2.1
      emptyStore 0 none "offline" rfl⟩

/-- `C4` as frozen is false at the boundary offset −12 h (UTC−12, a real
timezone) where the cache key — built from the *local* calendar date by
date-fns `format(date, 'yyyy-MM-dd')` — differs from the canonical UTC-day
string `formatUtcDateFromLocal` produces; and for years below 1000, where
the cache key pads the year to four digits but the canonical string does
not. -/
theorem c4_counterexample :
    contentKey (2025, 3, 14) "cs.AI" = "2025-03-14/cs.AI" ∧
    formatUtcDateFromLocal (-720) (2025, 3, 14) ++ "/" ++ "cs.AI" =
      "2025-03-15/cs.AI" ∧
    contentKey (2025, 3, 14) "cs.AI" ≠
      formatUtcDateFromLocal (-720) (2025, 3, 14) ++ "/" ++ "cs.AI" ∧
    contentKey (500, 1, 5) "cs.AI" = "0500-01-05/cs.AI" ∧
    formatUtcDateFromLocal 0 (500, 1, 5) ++ "/" ++ "cs.AI" =
      "500-01-05/cs.AI" ∧
    contentKey (500, 1, 5) "cs.AI" ≠
      formatUtcDateFromLocal 0 (500, 1, 5) ++ "/" ++ "cs.AI" :=
  ⟨by decide, by decide, by decide, by decide, by decide, by decide⟩

/-- `C4`, amended.  For a calendar-valid local date with year at least
1000 and a caller UTC offset strictly above −12 h and at most +12 h, the
content cache key shared by `cacheData` and `getCachedData` equals the
canonical UTC-day string produced by `formatUtcDateFromLocal` joined with
`"/"` and the category; the canonical string (hence the key) is the same
at every such offset; and `cacheData` stores its record exactly at that
canonical key. -/
theorem c4_key_is_canonical_amended (y m d : Int) (category : String)
    (o : Int) (hv : ValidCivil y m d) (hy1 : 1000 ≤ y)
    (ho1 : -720 < o) (ho2 : o ≤ 720) :
    contentKey (y, m, d) category =
      formatUtcDateFromLocal o (y, m, d) ++ "/" ++ category ∧
    (∀ o2, -720 < o2 → o2 ≤ 720 →
      formatUtcDateFromLocal o2 (y, m, d) =
        formatUtcDateFromLocal o (y, m, d)) ∧
    (∀ st now data, (cacheData st now (y, m, d) category data).content
      (formatUtcDateFromLocal o (y, m, d) ++ "/" ++ category) =
        some ⟨data, now⟩) := by
  have hcanon : ∀ o2 : Int, -720 < o2 → o2 ≤ 720 →
      formatUtcDateFromLocal o2 (y, m, d) =
        intDecStr y ++ "-" ++ pad2 m ++ "-" ++ pad2 d := by
    intro o2 h1 h2
    simp only [formatUtcDateFromLocal]
    rw [show (daysFromCivil y m d * 1440 + 720 - o2) / 1440 =
      daysFromCivil y m d by omega]
    rw [civilFromDays_daysFromCivil y m d hv]
  have hkey : contentKey (y, m, d) category =
      formatUtcDateFromLocal o (y, m, d) ++ "/" ++ category := by
    rw [hcanon o ho1 ho2]
    simp only [contentKey, fmtDateFns]
    rw [pad4_eq_intDecStr y hy1]
  refine ⟨hkey, fun o2 h1 h2 => (hcanon o2 h1 h2).trans
    (hcanon o ho1 ho2).symm, fun st now data => ?_⟩
  rw [← hkey]
  simp [cacheData]

/-- Witness for the amended `C4` at a concrete date, category and
offset. -/
theorem c4_key_is_canonical_amended_witness :
    contentKey (2025, 3, 14) "cs.AI" =
      formatUtcDateFromLocal 300 (2025, 3, 14) ++ "/" ++ "cs.AI" :=
  (c4_key_is_canonical_amended 2025 3 14 "cs.AI" 300 (by decide) (by decide)
    (by decide) (by decide)).1

end DayDayArXiv
